import Mathlib

/-!
Shallow embedding of `src/main.rs` of the rust-vdb repository: a small
semantic-search pipeline that chunks a corpus, embeds each chunk through a
remote provider, upserts the vectors into a vector index service, and answers
queries by a top-1 nearest-neighbour search.

Modelling conventions:
* JSON documents are an inductive `Json` AST; numbers are `Rat`
  (the Rust code uses `f32`, whose values we model as exact rationals — none
  of the verified claims depend on floating-point rounding).
* The outside world is a `World`: the process environment, an HTTP oracle
  mapping each request to either a transport error or a response, and the
  contents of the corpus file.  The HTTP oracle models `reqwest`: `send()`
  fails only on transport problems; a response carries a status code and a
  body, and the Rust code under scrutiny never inspects the status.
* Each translated function returns its `anyhow::Result` value together with
  the ordered list of HTTP requests it issued, so that claims about
  "zero outbound requests" or "a single upsert request" are statable.
* `println!` output is not modelled; it never influences control flow.
-/

namespace VDB

/-- JSON values, as produced by `serde_json`.  Numbers are modelled as `Rat`. -/
inductive Json where
  | null : Json
  | bool (b : Bool) : Json
  | num (q : Rat) : Json
  | str (s : String) : Json
  | arr (elems : List Json) : Json
  | obj (fields : List (String × Json)) : Json

/-- HTTP methods used by the program (`client.put` / `client.post`). -/
inductive Method where
  | put : Method
  | post : Method
deriving DecidableEq

/-- An outbound HTTP request: method, URL, optional Authorization header
value, JSON body. -/
structure Request where
  method : Method
  url : String
  auth : Option String
  body : Json

/-- An HTTP response: status code and (already decoded) JSON body.  The Rust
code reads `.text()` / `.json()` from it; it never reads `status`. -/
structure Response where
  status : Nat
  body : Json

/-- Transport-level failures (DNS, connection, timeout): what makes
`reqwest`'s `send()` return `Err`.  Carried as an opaque message. -/
abbrev TransportFailure := String

/-- The external world a process run interacts with: environment variables,
the HTTP transport, and the corpus file `src/reg-all.txt` (`none` models a
failing `fs::read_to_string`). -/
structure World where
  env : String → Option String
  http : Request → Except TransportFailure Response
  file : Option String

/-- The distinct error kinds an `anyhow::Result` of this program can carry,
one per `?`/`.context(...)` site:
* `config` — `env::var("HUGGINGFACE_API_KEY")` failed
  (`"Expected a Hugging Face API key"`);
* `headerInvalid` — `HeaderValue::from_str` rejected the bearer string;
* `transport e` — `send()` (or body read) failed at the transport level;
* `deser` — `serde_json::from_str::<Vec<f32>>` / `.json::<SearchResult>()`
  failed (`"Failed to deserialize embedding response"`);
* `fileRead` — `"Failed to read from reg-all.txt"`;
* `noMatch` — `"No similar vector found"`. -/
inductive Err where
  | config : Err
  | headerInvalid : Err
  | transport (e : TransportFailure) : Err
  | deser : Err
  | fileRead : Err
  | noMatch : Err
deriving DecidableEq

/-! ### The Chunker: `file_content.split("\n\n")` -/

/-- Rust's `str::split` with the two-character needle `"\n\n"`: scan left to
right; each non-overlapping occurrence of the needle ends the current chunk.
Splitting the empty string yields one empty chunk, exactly as in Rust. -/
def splitNN : List Char → List (List Char)
  | [] => [[]]
  | '\n' :: '\n' :: rest => [] :: splitNN rest
  | c :: rest =>
    match splitNN rest with
    | [] => [[c]]
    | chunk :: chunks => (c :: chunk) :: chunks

/-- Whether a character list contains two consecutive newline characters,
i.e. an occurrence of the chunk delimiter. -/
def hasNN : List Char → Bool
  | [] => false
  | [_] => false
  | a :: b :: rest => (a = '\n' && b = '\n') || hasNN (b :: rest)

/-- Translation of `file_content.split("\n\n").map(String::from).collect()`. -/
def chunkCorpus (s : String) : List String :=
  (splitNN s.data).map List.asString

/-! ### URLs and request bodies -/

/-- The URL `format!("http://localhost:6333/collections/{}", collection_name)`. -/
def collectionUrl (collection_name : String) : String :=
  "http://localhost:6333/collections/" ++ collection_name

/-- The URL `format!("http://localhost:6333/collections/{}/points", collection_name)`. -/
def pointsUrl (collection_name : String) : String :=
  "http://localhost:6333/collections/" ++ collection_name ++ "/points"

/-- The fixed search endpoint of the query path. -/
def searchUrl : String :=
  "http://localhost:6333/collections/registration_collection/points/search"

/-- The embedding provider endpoint. -/
def hfUrl : String :=
  "https://api-inference.huggingface.co/models/sentence-transformers/all-MiniLM-L6-v2"

/-- The `json!` body of `create_qdrant_collection`. -/
def collectionBody (vector_size : Nat) (distance : String) : Json :=
  Json.obj [("vectors", Json.obj [("size", Json.num vector_size),
                                  ("distance", Json.str distance)])]

/-- One element of the `"points"` array: `{"id": id, "vector": vector,
"payload": {"text": chunk}}`. -/
def pointJson : Nat × List Rat × String → Json
  | (id, vector, chunk) =>
    Json.obj [("id", Json.num id),
              ("vector", Json.arr (vector.map Json.num)),
              ("payload", Json.obj [("text", Json.str chunk)])]

/-- The `json!` body of `add_points_to_qdrant`: the whole batch in one
document. -/
def pointsBody (points : List (Nat × List Rat × String)) : Json :=
  Json.obj [("points", Json.arr (points.map pointJson))]

/-- The PUT request `create_qdrant_collection` sends. -/
def createReq (collection_name : String) (vector_size : Nat) (distance : String) : Request :=
  { method := Method.put, url := collectionUrl collection_name,
    auth := none, body := collectionBody vector_size distance }

/-- The PUT request `add_points_to_qdrant` sends. -/
def upsertReq (collection_name : String) (points : List (Nat × List Rat × String)) : Request :=
  { method := Method.put, url := pointsUrl collection_name,
    auth := none, body := pointsBody points }

/-- The POST request `embed_text` sends: bearer header plus `json!([text])`. -/
def hfReq (apiKey text : String) : Request :=
  { method := Method.post, url := hfUrl,
    auth := some ("Bearer " ++ apiKey),
    body := Json.arr [Json.str text] }

/-- The POST request of the search path, body `SearchQuery { vector }`. -/
def searchReq (vector : List Rat) : Request :=
  { method := Method.post, url := searchUrl,
    auth := none, body := Json.obj [("vector", Json.arr (vector.map Json.num))] }

/-! ### Response parsing -/

/-- Rust's `serde_json::from_str::<Vec<f32>>`: succeeds exactly on a flat array of
numbers. -/
def parseFloatArray : Json → Option (List Rat)
  | Json.arr elems =>
    elems.mapM fun e =>
      match e with
      | Json.num q => some q
      | _ => none
  | _ => none

/-- Rust's `struct SearchResultItem { id: u64 }` — serde ignores the other fields. -/
structure SearchResultItem where
  id : Nat
deriving DecidableEq

/-- Deserializing a `u64` field: the JSON number must be a non-negative
integer below `2^64`. -/
def jsonToU64 : Json → Option Nat
  | Json.num q => if q.den = 1 ∧ 0 ≤ q.num ∧ q.num.toNat < 2 ^ 64 then some q.num.toNat else none
  | _ => none

/-- Deserializing one `SearchResultItem` from a JSON object. -/
def parseResultItem : Json → Option SearchResultItem
  | Json.obj fields =>
    match fields.lookup "id" with
    | some v => (jsonToU64 v).map SearchResultItem.mk
    | none => none
  | _ => none

/-- Rust's `.json::<SearchResult>()`: an object whose `"result"` field is an array
of items. -/
def parseSearchResult : Json → Option (List SearchResultItem)
  | Json.obj fields =>
    match fields.lookup "result" with
    | some (Json.arr elems) => elems.mapM parseResultItem
    | _ => none
  | _ => none

/-- Rust's `http::HeaderValue::from_str` accepts a string iff every byte is visible
ASCII, space, tab, or a byte ≥ 0x80 (UTF-8 continuation/lead bytes all pass
the `b >= 32 && b != 127 || b == 9` test). -/
def isValidHeaderValue (s : String) : Bool :=
  s.data.all fun c => c.toNat == 9 || (32 ≤ c.toNat && c.toNat != 127)

/-! ### The translated functions -/

/-- Translation of `create_qdrant_collection`: PUT the collection descriptor; `?` propagates
only transport failures; the response body is printed, its status never
inspected, and `Ok(())` is returned. -/
def create_qdrant_collection (w : World) (collection_name : String)
    (vector_size : Nat) (distance : String) : Except Err Unit × List Request :=
  let req := createReq collection_name vector_size distance
  match w.http req with
  | Except.error e => (Except.error (Err.transport e), [req])
  | Except.ok _ => (Except.ok (), [req])

/-- Translation of `add_points_to_qdrant`: PUT the whole batch as one request; as above,
only transport failures propagate and the status is never inspected. -/
def add_points_to_qdrant (w : World) (collection_name : String)
    (points : List (Nat × List Rat × String)) : Except Err Unit × List Request :=
  let req := upsertReq collection_name points
  match w.http req with
  | Except.error e => (Except.error (Err.transport e), [req])
  | Except.ok _ => (Except.ok (), [req])

/-- Translation of `embed_text`: read `HUGGINGFACE_API_KEY` (failing before any request if
absent), build the bearer header, POST `[text]`, and deserialize the body as
`Vec<f32>`.  The response status is never inspected. -/
def embed_text (w : World) (text : String) : Except Err (List Rat) × List Request :=
  match w.env "HUGGINGFACE_API_KEY" with
  | none => (Except.error Err.config, [])
  | some apiKey =>
    if isValidHeaderValue ("Bearer " ++ apiKey) then
      let req := hfReq apiKey text
      match w.http req with
      | Except.error e => (Except.error (Err.transport e), [req])
      | Except.ok resp =>
        match parseFloatArray resp.body with
        | some embedding => (Except.ok embedding, [req])
        | none => (Except.error Err.deser, [req])
    else (Except.error Err.headerInvalid, [])

/-- The `for (i, text) in texts.iter().enumerate()` loop of
`load_data_to_qdrant`, started at index `i`: embed each chunk in order and
accumulate `(i as u64, vector, text)`; the first failure aborts the loop. -/
def ingestLoop (w : World) (i : Nat) :
    List String → Except Err (List (Nat × List Rat × String)) × List Request
  | [] => (Except.ok [], [])
  | text :: rest =>
    let (r, reqs) := embed_text w text
    match r with
    | Except.error e => (Except.error e, reqs)
    | Except.ok vector =>
      let (r2, reqs2) := ingestLoop w (i + 1) rest
      match r2 with
      | Except.error e => (Except.error e, reqs ++ reqs2)
      | Except.ok points => (Except.ok ((i, vector, text) :: points), reqs ++ reqs2)

/-- Translation of `load_data_to_qdrant`: create the collection, embed every chunk
sequentially, then upsert the whole batch; each `?` aborts the run. -/
def load_data_to_qdrant (w : World) (texts : List String) (collection_name : String)
    (vector_size : Nat) (distance : String) : Except Err Unit × List Request :=
  let (rc, reqsC) := create_qdrant_collection w collection_name vector_size distance
  match rc with
  | Except.error e => (Except.error e, reqsC)
  | Except.ok _ =>
    let (rp, reqsP) := ingestLoop w 0 texts
    match rp with
    | Except.error e => (Except.error e, reqsC ++ reqsP)
    | Except.ok points =>
      let (ra, reqsA) := add_points_to_qdrant w collection_name points
      match ra with
      | Except.error e => (Except.error e, reqsC ++ reqsP ++ reqsA)
      | Except.ok _ => (Except.ok (), reqsC ++ reqsP ++ reqsA)

/-- The three arms of `main`'s `match args.get(1).map(String::as_str)`:
`Some("load")`, `Some(query)`, `None`. -/
inductive Mode where
  | load : Mode
  | query (q : String) : Mode
  | noArgs : Mode
deriving DecidableEq

/-- Dispatch of `main` on `args.get(1)`: the literal `"load"` selects
ingestion, any other present argument is a live query, absence is the
no-argument notice. -/
def modeOf (args : List String) : Mode :=
  match args[1]? with
  | some arg => if arg = "load" then Mode.load else Mode.query arg
  | none => Mode.noArgs

/-- The `Some("load")` arm of `main`: read `src/reg-all.txt`, chunk it on
`"\n\n"`, and run `load_data_to_qdrant` with the fixed collection name,
vector size 384 and Cosine distance. -/
def loadMain (w : World) : Except Err Unit × List Request :=
  match w.file with
  | none => (Except.error Err.fileRead, [])
  | some file_content =>
    load_data_to_qdrant w (chunkCorpus file_content) "registration_collection" 384 "Cosine"

/-- The `Some(query)` arm of `main`: embed the query, POST the search, parse
the response, and take `result.get(0).context("No similar vector found")?.id`
— the value printed as the most similar text ID. -/
def queryMain (w : World) (query : String) : Except Err Nat × List Request :=
  let (r, reqs) := embed_text w query
  match r with
  | Except.error e => (Except.error e, reqs)
  | Except.ok query_vector =>
    let req := searchReq query_vector
    match w.http req with
    | Except.error e => (Except.error (Err.transport e), reqs ++ [req])
    | Except.ok resp =>
      match parseSearchResult resp.body with
      | none => (Except.error Err.deser, reqs ++ [req])
      | some result =>
        match result.get? 0 with
        | none => (Except.error Err.noMatch, reqs ++ [req])
        | some item => (Except.ok item.id, reqs ++ [req])

/-- Translation of `main`: dispatch on the first positional argument; the `None` arm prints
a notice and falls through to `Ok(())` with no request issued. -/
def mainFn (w : World) (args : List String) : Except Err Unit × List Request :=
  match modeOf args with
  | Mode.load => loadMain w
  | Mode.query q =>
    let (r, reqs) := queryMain w q
    match r with
    | Except.error e => (Except.error e, reqs)
    | Except.ok _ => (Except.ok (), reqs)
  | Mode.noArgs => (Except.ok (), [])

/-- Whether a request is the point-upsert request of the named collection:
a PUT to `pointsUrl`. -/
def isUpsertFor (collection_name : String) (q : Request) : Bool :=
  decide (q.method = Method.put ∧ q.url = pointsUrl collection_name)

/-! ### Concrete worlds used to instantiate the theorems -/

/-- An environment holding the provider credential `"k"`. -/
def envOk : String → Option String :=
  fun v => if v = "HUGGINGFACE_API_KEY" then some "k" else none

/-- No credential, transport always failing. -/
def wDown : World :=
  { env := fun _ => none, http := fun _ => Except.error "connection refused",
    file := none }

/-- Credential present, transport always failing. -/
def wDownK : World :=
  { env := envOk, http := fun _ => Except.error "connection refused", file := none }

/-- Credential present; the embedding endpoint answers 200 with `[1.0]`; the
index service answers every request with status 400 and an error body; the
corpus file is empty. -/
def wStub : World :=
  { env := envOk,
    http := fun r =>
      if r.url = hfUrl then Except.ok { status := 200, body := Json.arr [Json.num 1] }
      else Except.ok { status := 400, body := Json.str "bad request" },
    file := some "" }

/-- Credential present; every response has status 500 and body `[1.0]`. -/
def wStatus500 : World :=
  { env := envOk,
    http := fun _ => Except.ok { status := 500, body := Json.arr [Json.num 1] },
    file := none }

/-- Credential present; every response is 200 with a non-array JSON object. -/
def wObjBody : World :=
  { env := envOk,
    http := fun _ =>
      Except.ok { status := 200, body := Json.obj [("error", Json.str "overloaded")] },
    file := none }

/-- Embedding works; every search answers 200 with an empty result list. -/
def wEmptyRes : World :=
  { env := envOk,
    http := fun r =>
      if r.url = hfUrl then Except.ok { status := 200, body := Json.arr [Json.num 1] }
      else Except.ok { status := 200, body := Json.obj [("result", Json.arr [])] },
    file := none }

/-- Embedding works; every search answers 200 with one result of id 7. -/
def wOneRes : World :=
  { env := envOk,
    http := fun r =>
      if r.url = hfUrl then Except.ok { status := 200, body := Json.arr [Json.num 1] }
      else Except.ok { status := 200,
                       body := Json.obj [("result", Json.arr [Json.obj [("id", Json.num 7)]])] },
    file := none }

/-! ### Helper lemmas about the Chunker -/

theorem splitNN_ne_nil (l : List Char) : splitNN l ≠ [] := by
  induction l using splitNN.induct with
  | case1 => simp [splitNN]
  | case2 rest ih => simp [splitNN]
  | case3 c rest h hnil ih => simp_all [splitNN]
  | case4 c rest h chunk chunks heq ih => simp_all [splitNN]

theorem intercalate_cons_cons (sep a b : List Char) (l : List (List Char)) :
    List.intercalate sep (a :: b :: l) = a ++ sep ++ List.intercalate sep (b :: l) := by
  simp [List.intercalate, List.intersperse]

/-- Joining the chunks back with the separator restores the input: the
Chunker splits on the separator, keeps every substring (empty ones included)
and preserves order. -/
theorem splitNN_intercalate (l : List Char) :
    List.intercalate ['\n', '\n'] (splitNN l) = l := by
  induction l using splitNN.induct with
  | case1 => simp [splitNN, List.intercalate]
  | case2 rest ih =>
    rw [splitNN.eq_2]
    obtain ⟨b, bs, hb⟩ := List.exists_cons_of_ne_nil (splitNN_ne_nil rest)
    rw [hb] at ih ⊢
    rw [intercalate_cons_cons]
    simpa using ih
  | case3 c rest h hnil ih => exact absurd hnil (splitNN_ne_nil rest)
  | case4 c rest h chunk chunks heq ih =>
    rw [splitNN.eq_3 c rest h, heq]
    rw [heq] at ih
    cases chunks with
    | nil => simp_all [List.intercalate]
    | cons d ds =>
      rw [intercalate_cons_cons] at ih ⊢
      simpa using ih

/-- A non-empty first chunk starts with the first character of the input. -/
theorem splitNN_head_cons (rest : List Char) (d : Char) (chunk : List Char)
    (chunks : List (List Char)) (h : splitNN rest = (d :: chunk) :: chunks) :
    ∃ r, rest = d :: r := by
  induction rest using splitNN.induct with
  | case1 => simp [splitNN] at h
  | case2 r ih => rw [splitNN.eq_2] at h; simp at h
  | case3 c r hc hnil ih =>
    rw [splitNN.eq_3 c r hc, hnil] at h
    simp at h
    exact ⟨r, by rw [h.1.1]⟩
  | case4 c r hc ch chs heq ih =>
    rw [splitNN.eq_3 c r hc, heq] at h
    simp at h
    exact ⟨r, by rw [h.1.1]⟩

/-- No produced chunk still contains the `"\n\n"` delimiter: the Chunker
splits at every delimiter occurrence. -/
theorem splitNN_no_sep (l : List Char) : ∀ chunk ∈ splitNN l, hasNN chunk = false := by
  induction l using splitNN.induct with
  | case1 => simp [splitNN, hasNN]
  | case2 rest ih =>
    rw [splitNN.eq_2]
    intro chunk hm
    rcases List.mem_cons.mp hm with h1 | h2
    · rw [h1]; rfl
    · exact ih chunk h2
  | case3 c rest h hnil ih =>
    rw [splitNN.eq_3 c rest h, hnil]
    intro chunk hm
    simp at hm
    rw [hm]; rfl
  | case4 c rest h chunk chunks heq ih =>
    rw [splitNN.eq_3 c rest h, heq]
    intro ch hm
    rcases List.mem_cons.mp hm with h1 | h2
    · subst h1
      cases chunk with
      | nil => rfl
      | cons d chunk2 =>
        have hd : hasNN (d :: chunk2) = false := ih _ (heq ▸ List.mem_cons_self _ _)
        have hcd : (c = '\n' && d = '\n') = false := by
          by_contra hcontra
          simp at hcontra
          obtain ⟨r, hr⟩ := splitNN_head_cons rest d chunk2 chunks heq
          exact h r hcontra.1 (by rw [hr, hcontra.2])
        show hasNN (c :: d :: chunk2) = false
        rw [hasNN, hcd, hd]
        rfl
    · exact ih ch (heq ▸ List.mem_cons_of_mem _ h2)

/-! ### Claim theorems -/

/-- C7: for every corpus text, chunking splits exactly on double-newline
boundaries, preserves order, and keeps every resulting substring — including
empty ones — as a chunk (joining the chunks back with the delimiter restores
the input verbatim, and no chunk retains a delimiter occurrence);
re-chunking identical input yields an identical ordered sequence. -/
theorem chunker_exact_split (l : List Char) :
    List.intercalate ['\n', '\n'] (splitNN l) = l ∧
    (∀ chunk ∈ splitNN l, hasNN chunk = false) ∧
    (∀ l₂, l = l₂ → splitNN l = splitNN l₂) := by
  refine ⟨splitNN_intercalate l, splitNN_no_sep l, ?_⟩
  intro l₂ h
  rw [h]

/-- Witness for C7 at the corpus `"a\n\nb"`. -/
theorem chunker_exact_split_witness :
    List.intercalate ['\n', '\n'] (splitNN "a\n\nb".data) = "a\n\nb".data ∧
    hasNN ['a'] = false ∧
    splitNN "a\n\nb".data = splitNN "a\n\nb".data := by
  have h := chunker_exact_split "a\n\nb".data
  exact ⟨h.1, h.2.1 ['a'] (by decide), h.2.2 _ rfl⟩

/-- C5: when the provider credential is absent from the environment,
`embed_text` fails with the configuration error and issues zero requests. -/
theorem embed_missing_key_no_request (w : World) (text : String)
    (h : w.env "HUGGINGFACE_API_KEY" = none) :
    embed_text w text = (Except.error Err.config, []) := by
  simp [embed_text, h]

/-- Witness for C5 at a concrete world with an empty environment. -/
theorem embed_missing_key_no_request_witness :
    embed_text wDown "query" = (Except.error Err.config, []) :=
  embed_missing_key_no_request wDown "query" rfl

/-- C10: with no positional argument, `main` issues no request and returns
`Ok` (the printed notice is not modelled; it does not affect control flow). -/
theorem no_args_ok_no_requests (w : World) (args : List String)
    (h : args[1]? = none) :
    mainFn w args = (Except.ok (), []) := by
  simp [mainFn, modeOf, h]

/-- Witness for C10: a run with only the program name. -/
theorem no_args_ok_no_requests_witness :
    mainFn wDown ["prog"] = (Except.ok (), []) :=
  no_args_ok_no_requests wDown ["prog"] rfl

/-- C9: the first positional argument `"load"` always selects ingestion mode,
any other present first argument becomes a live query, and consequently the
literal `"load"` can never be submitted as a query. -/
theorem load_literal_selects_ingest (args : List String) :
    (args[1]? = some "load" → modeOf args = Mode.load) ∧
    (∀ q, args[1]? = some q → q ≠ "load" → modeOf args = Mode.query q) ∧
    (∀ q, modeOf args = Mode.query q → q ≠ "load") ∧
    (∀ w, args[1]? = some "load" → mainFn w args = loadMain w) := by
  refine ⟨?_, ?_, ?_, ?_⟩
  · intro h; simp [modeOf, h]
  · intro q h hne; simp [modeOf, h, hne]
  · intro q h
    unfold modeOf at h
    cases harg : args[1]? with
    | none => rw [harg] at h; simp at h
    | some arg =>
      rw [harg] at h
      by_cases he : arg = "load" <;> simp [he] at h
      rw [← h]; exact he
  · intro w h; simp [mainFn, modeOf, h]

/-- On success, the ingestion loop started at index `i` produces the points
for exactly the given chunks, in order, with the sequential ids
`i, i+1, ...` and the chunk text as the payload component. -/
theorem ingestLoop_ok_spec (w : World) :
    ∀ (texts : List String) (i : Nat) (pts : List (Nat × List Rat × String))
      (reqs : List Request),
      ingestLoop w i texts = (Except.ok pts, reqs) →
      pts.map (fun p => p.1) = List.range' i texts.length ∧
      pts.map (fun p => p.2.2) = texts := by
  intro texts
  induction texts with
  | nil =>
    intro i pts reqs h
    simp [ingestLoop] at h
    simp [h.1]
  | cons t rest ih =>
    intro i pts reqs h
    rw [ingestLoop] at h
    rcases he : embed_text w t with ⟨r1, reqs1⟩
    rw [he] at h
    cases r1 with
    | error e => simp at h
    | ok vector =>
      rcases hi : ingestLoop w (i + 1) rest with ⟨r2, reqs2⟩
      rw [hi] at h
      cases r2 with
      | error e => simp at h
      | ok pts2 =>
        simp at h
        obtain ⟨ha, hb⟩ := ih (i + 1) pts2 reqs2 (by rw [hi])
        rw [← h.1]
        constructor
        · simp [ha, List.range'_succ]
        · simp [hb]

/-- C6: point ids are assigned deterministically as the zero-based sequential
chunk index in source order; two ingestion runs over the same corpus — even
against different worlds — produce the same ids. -/
theorem point_ids_sequential_deterministic
    (w w' : World) (texts : List String)
    (pts pts' : List (Nat × List Rat × String)) (reqs reqs' : List Request)
    (h : ingestLoop w 0 texts = (Except.ok pts, reqs))
    (h' : ingestLoop w' 0 texts = (Except.ok pts', reqs')) :
    pts.map (fun p => p.1) = List.range texts.length ∧
    pts'.map (fun p => p.1) = pts.map (fun p => p.1) ∧
    pts.map (fun p => p.2.2) = texts := by
  obtain ⟨ha, hb⟩ := ingestLoop_ok_spec w texts 0 pts reqs h
  obtain ⟨ha', hb'⟩ := ingestLoop_ok_spec w' texts 0 pts' reqs' h'
  rw [List.range_eq_range']
  exact ⟨ha, by rw [ha, ha'], hb⟩

/-- Witness for C6: a one-chunk corpus ingested twice against the same
concrete world. -/
theorem point_ids_sequential_deterministic_witness :
    List.map (fun p => p.1) [((0 : Nat), (([1] : List Rat), "a"))]
      = List.range ["a"].length ∧
    List.map (fun p => p.1) [((0 : Nat), (([1] : List Rat), "a"))]
      = List.map (fun p => p.1) [((0 : Nat), (([1] : List Rat), "a"))] ∧
    List.map (fun p => p.2.2) [((0 : Nat), (([1] : List Rat), "a"))] = ["a"] :=
  point_ids_sequential_deterministic wStatus500 wStatus500 ["a"]
    [(0, [1], "a")] [(0, [1], "a")] [hfReq "k" "a"] [hfReq "k" "a"] rfl rfl

/-- C2 counterexample: the Chunker applied to the empty corpus yields ONE
chunk (the empty string), not zero, and the ingestion run over the empty
corpus issues an upsert carrying one point, not zero. -/
theorem chunk_empty_corpus_one_chunk :
    chunkCorpus "" = [""] ∧ chunkCorpus "" ≠ [] ∧
    (mainFn wStub ["prog", "load"]).2.filter (isUpsertFor "registration_collection")
      = [upsertReq "registration_collection" [(0, [1], "")]] :=
  ⟨rfl, by decide, rfl⟩

/-- C2 amended: the Chunker applied to the empty corpus produces exactly one
chunk — the empty string — so a successful ingestion of the empty corpus
uploads exactly one point, with id 0 and the empty string as its text. -/
theorem empty_corpus_uploads_one_point :
    chunkCorpus "" = [""] ∧
    ∀ (w : World) (pts : List (Nat × List Rat × String)) (reqs : List Request),
      ingestLoop w 0 (chunkCorpus "") = (Except.ok pts, reqs) →
      ∃ v, pts = [(0, v, "")] := by
  refine ⟨rfl, ?_⟩
  intro w pts reqs h
  rw [show chunkCorpus "" = [""] from rfl] at h
  rw [ingestLoop] at h
  rcases he : embed_text w "" with ⟨r1, reqs1⟩
  rw [he] at h
  cases r1 with
  | error e => simp at h
  | ok v =>
    rw [ingestLoop] at h
    simp at h
    exact ⟨v, by rw [← h.1]⟩

/-- Witness for C2's amended claim at a concrete world whose embedding
endpoint answers `[1.0]`. -/
theorem empty_corpus_uploads_one_point_witness :
    chunkCorpus "" = [""] ∧
    ∃ v, ([((0 : Nat), (([1] : List Rat), ""))] : List (Nat × List Rat × String))
      = [(0, v, "")] :=
  ⟨empty_corpus_uploads_one_point.1,
   empty_corpus_uploads_one_point.2 wStatus500 [(0, [1], "")] [hfReq "k" ""] rfl⟩

/-- C4: when the nearest-neighbour search parses to an empty result list the
query path reports the distinct domain-level no-match error (never an
out-of-bounds access — `queryMain` is a total function and this case is the
`result.get(0)` miss); a non-empty list yields the id of its first element.
`Err.noMatch` is distinct from the deserialization and transport kinds. -/
theorem query_empty_result_no_match (w : World) (query : String)
    (v : List Rat) (resp : Response)
    (hv : (embed_text w query).1 = Except.ok v)
    (hr : w.http (searchReq v) = Except.ok resp) :
    (parseSearchResult resp.body = some [] →
      (queryMain w query).1 = Except.error Err.noMatch) ∧
    (∀ item rest, parseSearchResult resp.body = some (item :: rest) →
      (queryMain w query).1 = Except.ok item.id) ∧
    Err.noMatch ≠ Err.deser ∧ (∀ e, Err.noMatch ≠ Err.transport e) := by
  rcases he : embed_text w query with ⟨r1, reqs1⟩
  rw [he] at hv
  simp at hv
  subst hv
  refine ⟨?_, ?_, fun h => Err.noConfusion h, fun e h => Err.noConfusion h⟩
  · intro hp
    simp [queryMain, he, hr, hp]
  · intro item rest hp
    simp [queryMain, he, hr, hp]

/-- Witness for C4: an empty result list at one concrete world and a
singleton result of id 7 at another. -/
theorem query_empty_result_no_match_witness :
    (queryMain wEmptyRes "q").1 = Except.error Err.noMatch ∧
    (queryMain wOneRes "q").1 = Except.ok 7 :=
  ⟨(query_empty_result_no_match wEmptyRes "q" [1]
      { status := 200, body := Json.obj [("result", Json.arr [])] } rfl rfl).1 rfl,
   (query_empty_result_no_match wOneRes "q" [1]
      { status := 200,
        body := Json.obj [("result", Json.arr [Json.obj [("id", Json.num 7)]])] }
      rfl rfl).2.1 ⟨7⟩ [] rfl⟩

/-- C3 counterexample: a non-2xx provider response whose body is a flat
numeric array is accepted by `embed_text` — the status is never inspected,
so a non-success status alone does not produce an error. -/
theorem embed_ok_despite_non_success_status :
    wStatus500.http (hfReq "k" "q")
      = Except.ok { status := 500, body := Json.arr [Json.num 1] } ∧
    (embed_text wStatus500 "q").1 = Except.ok [1] :=
  ⟨rfl, rfl⟩

/-- C3 amended: a response body that does not parse as a flat numeric array
produces the deserialization error, which is distinguishable from the
transport error, and a non-array JSON body (such as an error object) always
fails rather than yielding a silent empty vector; the response status itself
is not inspected, so a body that does parse succeeds regardless of status. -/
theorem embed_error_kinds (w : World) (text apiKey : String)
    (henv : w.env "HUGGINGFACE_API_KEY" = some apiKey)
    (hval : isValidHeaderValue ("Bearer " ++ apiKey) = true) :
    (∀ e, w.http (hfReq apiKey text) = Except.error e →
      (embed_text w text).1 = Except.error (Err.transport e)) ∧
    (∀ resp, w.http (hfReq apiKey text) = Except.ok resp →
      parseFloatArray resp.body = none →
      (embed_text w text).1 = Except.error Err.deser) ∧
    (∀ resp v, w.http (hfReq apiKey text) = Except.ok resp →
      parseFloatArray resp.body = some v →
      (embed_text w text).1 = Except.ok v) ∧
    (∀ fields, parseFloatArray (Json.obj fields) = none) ∧
    (∀ e, Err.deser ≠ Err.transport e) := by
  refine ⟨?_, ?_, ?_, fun fields => rfl, fun e h => Err.noConfusion h⟩
  · intro e h
    simp [embed_text, henv, hval, h]
  · intro resp h hp
    simp [embed_text, henv, hval, h, hp]
  · intro resp v h hp
    simp [embed_text, henv, hval, h, hp]

/-- Witness for C3's amended claim: a deserialization failure on an object
body and a transport failure, at concrete worlds. -/
theorem embed_error_kinds_witness :
    (embed_text wObjBody "q").1 = Except.error Err.deser ∧
    (embed_text wDownK "q").1 = Except.error (Err.transport "connection refused") :=
  ⟨(embed_error_kinds wObjBody "q" "k" rfl rfl).2.1
      { status := 200, body := Json.obj [("error", Json.str "overloaded")] } rfl rfl,
   (embed_error_kinds wDownK "q" "k" rfl rfl).1 "connection refused" rfl⟩

/-- C1 counterexample: the index service answers the create-collection
request with status 400, yet ingestion returns `Ok` and still proceeds to
the point upload — the upsert request appears in the trace. -/
theorem load_proceeds_after_non_success_status :
    wStub.http (createReq "registration_collection" 384 "Cosine")
      = Except.ok { status := 400, body := Json.str "bad request" } ∧
    load_data_to_qdrant wStub ["a"] "registration_collection" 384 "Cosine"
      = (Except.ok (), [createReq "registration_collection" 384 "Cosine",
                        hfReq "k" "a",
                        upsertReq "registration_collection" [(0, [1], "a")]]) :=
  ⟨rfl, rfl⟩

/-- C1 amended: only transport-level failures of the index service are fatal
at ingestion time — the response status is never inspected.  A transport
error on the create-collection request aborts the run before any further
request; when the create request's transport succeeds, with any status
whatsoever, ingestion proceeds, and after successful embedding it issues the
point-upsert request. -/
theorem load_fatal_only_on_transport (w : World) (texts : List String)
    (name : String) (sz : Nat) (dist : String) :
    (∀ e, w.http (createReq name sz dist) = Except.error e →
      load_data_to_qdrant w texts name sz dist
        = (Except.error (Err.transport e), [createReq name sz dist])) ∧
    (∀ resp pts ireqs, w.http (createReq name sz dist) = Except.ok resp →
      ingestLoop w 0 texts = (Except.ok pts, ireqs) →
      (load_data_to_qdrant w texts name sz dist).2
        = createReq name sz dist :: (ireqs ++ [upsertReq name pts])) := by
  constructor
  · intro e h
    simp [load_data_to_qdrant, create_qdrant_collection, h]
  · intro resp pts ireqs h hi
    simp only [load_data_to_qdrant, create_qdrant_collection, h, hi]
    rcases hu : w.http (upsertReq name pts) with e | r <;>
      simp [add_points_to_qdrant, hu]

/-- Witness for C1's amended claim: the transport-failure abort at one
concrete world and the proceed-past-status-400 run at another. -/
theorem load_fatal_only_on_transport_witness :
    load_data_to_qdrant wDownK ["a"] "c" 1 "Cosine"
      = (Except.error (Err.transport "connection refused"), [createReq "c" 1 "Cosine"]) ∧
    (load_data_to_qdrant wStub ["a"] "registration_collection" 384 "Cosine").2
      = createReq "registration_collection" 384 "Cosine"
        :: ([hfReq "k" "a"] ++ [upsertReq "registration_collection" [(0, [1], "a")]]) :=
  ⟨(load_fatal_only_on_transport wDownK ["a"] "c" 1 "Cosine").1 "connection refused" rfl,
   (load_fatal_only_on_transport wStub ["a"] "registration_collection" 384 "Cosine").2
     { status := 400, body := Json.str "bad request" } [(0, [1], "a")]
     [hfReq "k" "a"] rfl rfl⟩

/-- Every request `embed_text` issues is a POST (to the provider endpoint). -/
theorem embed_reqs_post (w : World) (t : String) :
    ∀ q ∈ (embed_text w t).2, q.method = Method.post := by
  have hcases : (embed_text w t).2 = [] ∨ ∃ k, (embed_text w t).2 = [hfReq k t] := by
    unfold embed_text
    cases henv : w.env "HUGGINGFACE_API_KEY" with
    | none => left; rfl
    | some apiKey =>
      by_cases hval : isValidHeaderValue ("Bearer " ++ apiKey) = true
      · simp only [hval, if_true]
        cases hh : w.http (hfReq apiKey t) with
        | error e => right; exact ⟨apiKey, rfl⟩
        | ok resp =>
          right
          refine ⟨apiKey, ?_⟩
          show (match parseFloatArray resp.body with
              | some embedding =>
                ((Except.ok embedding : Except Err (List Rat)), [hfReq apiKey t])
              | none => (Except.error Err.deser, [hfReq apiKey t])).2 = [hfReq apiKey t]
          cases parseFloatArray resp.body <;> rfl
      · simp only [hval, if_false]
        left; rfl
  intro q hq
  rcases hcases with hc | ⟨k, hc⟩ <;> rw [hc] at hq
  · simp at hq
  · simp at hq; rw [hq]; rfl

/-- Every request the ingestion loop issues is a POST. -/
theorem ingestLoop_reqs_post (w : World) :
    ∀ (texts : List String) (i : Nat),
      ∀ q ∈ (ingestLoop w i texts).2, q.method = Method.post := by
  intro texts
  induction texts with
  | nil => intro i q hq; simp [ingestLoop] at hq
  | cons t rest ih =>
    intro i q hq
    rw [ingestLoop] at hq
    rcases he : embed_text w t with ⟨r1, reqs1⟩
    rw [he] at hq
    have h1 : ∀ x ∈ reqs1, x.method = Method.post := by
      intro x hx; exact embed_reqs_post w t x (by rw [he]; exact hx)
    cases r1 with
    | error e => simp at hq; exact h1 q hq
    | ok vector =>
      rcases hi : ingestLoop w (i + 1) rest with ⟨r2, reqs2⟩
      rw [hi] at hq
      have h2 : ∀ x ∈ reqs2, x.method = Method.post := by
        intro x hx; exact ih (i + 1) x (by rw [hi]; exact hx)
      cases r2 with
      | error e =>
        simp at hq
        rcases hq with hq | hq
        exacts [h1 q hq, h2 q hq]
      | ok pts =>
        simp at hq
        rcases hq with hq | hq
        exacts [h1 q hq, h2 q hq]

/-- The create-collection URL differs from the point-upsert URL. -/
theorem collectionUrl_ne_pointsUrl (name : String) :
    collectionUrl name ≠ pointsUrl name := by
  intro h
  have hlen := congrArg String.length h
  have h7 : ("/points" : String).length = 7 := rfl
  simp only [collectionUrl, pointsUrl, String.length_append] at hlen
  omega

theorem isUpsertFor_createReq (name : String) (sz : Nat) (dist : String) :
    isUpsertFor name (createReq name sz dist) = false := by
  simp [isUpsertFor, createReq]
  exact collectionUrl_ne_pointsUrl name

theorem isUpsertFor_post (name : String) (q : Request)
    (h : q.method = Method.post) : isUpsertFor name q = false := by
  simp [isUpsertFor, h]

theorem isUpsertFor_upsertReq (name : String)
    (pts : List (Nat × List Rat × String)) :
    isUpsertFor name (upsertReq name pts) = true := by
  simp [isUpsertFor, upsertReq]

/-- C8: a successful ingestion run issues exactly one point-upsert request
(one PUT to the points URL in the whole trace); its body serializes the
whole batch at once — for each chunk in source order one element with the
sequential id, the vector, and the payload fixed to the chunk's text. -/
theorem single_upsert_request (w : World) (texts : List String)
    (name : String) (sz : Nat) (dist : String) (reqs : List Request)
    (h : load_data_to_qdrant w texts name sz dist = (Except.ok (), reqs)) :
    ∃ pts, reqs.filter (isUpsertFor name) = [upsertReq name pts] ∧
      pts.map (fun p => p.1) = List.range texts.length ∧
      pts.map (fun p => p.2.2) = texts ∧
      (upsertReq name pts).body
        = Json.obj [("points", Json.arr (pts.map pointJson))] := by
  unfold load_data_to_qdrant at h
  rcases hc : w.http (createReq name sz dist) with e | cresp
  · have hcr : create_qdrant_collection w name sz dist
        = (Except.error (Err.transport e), [createReq name sz dist]) := by
      simp [create_qdrant_collection, hc]
    rw [hcr] at h
    simp at h
  · have hcr : create_qdrant_collection w name sz dist
        = (Except.ok (), [createReq name sz dist]) := by
      simp [create_qdrant_collection, hc]
    rw [hcr] at h
    rcases hi : ingestLoop w 0 texts with ⟨r2, ireqs⟩
    rw [hi] at h
    cases r2 with
    | error e => simp at h
    | ok pts =>
      rcases hu : w.http (upsertReq name pts) with e | uresp
      · have hup : add_points_to_qdrant w name pts
            = (Except.error (Err.transport e), [upsertReq name pts]) := by
          simp [add_points_to_qdrant, hu]
        simp only [hup] at h
        simp at h
      · have hup : add_points_to_qdrant w name pts
            = (Except.ok (), [upsertReq name pts]) := by
          simp [add_points_to_qdrant, hu]
        simp only [hup] at h
        simp at h
        obtain ⟨ha, hb⟩ := ingestLoop_ok_spec w texts 0 pts ireqs (by rw [hi])
        have hpost : ∀ q ∈ ireqs, isUpsertFor name q = false := by
          intro q hq
          exact isUpsertFor_post name q
            (ingestLoop_reqs_post w texts 0 q (by rw [hi]; exact hq))
        have hnil : ireqs.filter (isUpsertFor name) = [] :=
          List.filter_eq_nil_iff.mpr (by intro q hq; simp [hpost q hq])
        refine ⟨pts, ?_, ?_, hb, rfl⟩
        · rw [← h]
          simp [List.filter_append, List.filter_cons, isUpsertFor_createReq,
                isUpsertFor_upsertReq, hnil]
        · rw [ha, List.range_eq_range']

/-- Witness for C8 at a concrete one-chunk run. -/
theorem single_upsert_request_witness :
    ∃ pts,
      ([createReq "registration_collection" 384 "Cosine",
        hfReq "k" "a",
        upsertReq "registration_collection" [(0, [1], "a")]].filter
          (isUpsertFor "registration_collection"))
        = [upsertReq "registration_collection" pts] ∧
      pts.map (fun p => p.1) = List.range ["a"].length ∧
      pts.map (fun p => p.2.2) = ["a"] ∧
      (upsertReq "registration_collection" pts).body
        = Json.obj [("points", Json.arr (pts.map pointJson))] :=
  single_upsert_request wStub ["a"] "registration_collection" 384 "Cosine"
    [createReq "registration_collection" 384 "Cosine", hfReq "k" "a",
     upsertReq "registration_collection" [(0, [1], "a")]] rfl

/-- Witness for C9 at `["prog", "load"]` and `["prog", "hello"]`. -/
theorem load_literal_selects_ingest_witness :
    modeOf ["prog", "load"] = Mode.load ∧
    modeOf ["prog", "hello"] = Mode.query "hello" ∧
    "hello" ≠ "load" ∧
    mainFn wDown ["prog", "load"] = loadMain wDown := by
  refine ⟨(load_literal_selects_ingest ["prog", "load"]).1 rfl,
          (load_literal_selects_ingest ["prog", "hello"]).2.1 "hello" rfl (by decide),
          by decide,
          (load_literal_selects_ingest ["prog", "load"]).2.2.2 wDown rfl⟩

end VDB
